import Mathlib

/-!
# Verification of the leapfrog N-body integrator (`src/main.rs`)

Shallow embedding of the physics core of the repository: the body state
store, the initializer `init_bodies`, and the per-frame integrator
`leapfrog_step` (kick–drift–kick, cutoff force law, energy diagnostics).

Numeric model: the source computes in `f32`/`f64`; here machine floats are
idealized as exact rationals `ℚ`, and the float `sqrt` is modeled by
`Rat.sqrt` (exact on perfect squares).  Statements that depend on IEEE-754
rounding itself are out of scope of this model; the one claim about
non-finite results of division by zero is settled on a separate
extended-value model (`F32`) defined below, which carries infinities and
NaN with IEEE semantics for the operations on the force path.
-/

namespace NBody

/-! Constants (`src/main.rs` lines 7–24) -/

def NUM_BODIES : ℕ := 1000

def MAX_X : ℚ := 5.0E14
def MIN_X : ℚ := -5.0E14
def MAX_Y : ℚ := 5.0E14
def MIN_Y : ℚ := -5.0E14

def MAX_MASS : ℚ := 9.0E29
def MIN_MASS : ℚ := 1.0E15

def MAX_V : ℚ := 9.0E03
def MIN_V : ℚ := 1.0E03

def GRAVITATION : ℚ := 6.67E-11
def D_TIME : ℚ := 2.0E07
def D_TIME_HALF : ℚ := 1.0E07
def A_RIGHT_YEAR : ℚ := 9.46E15

/-! Body State Store (`struct BodyState`, `struct Bodies`) -/

/-- One body record, with the same fields as the Rust `BodyState`
(the two screen-mapping fields `disp_x`/`disp_y` are presentation glue,
untouched by the physics core, and are omitted). -/
structure BodyState where
  mass : ℚ
  x : ℚ
  y : ℚ
  vx : ℚ
  vy : ℚ
  ax : ℚ
  ay : ℚ
  vx_half : ℚ
  vy_half : ℚ
  x_new : ℚ
  y_new : ℚ
  vx_new : ℚ
  vy_new : ℚ
  ax_new : ℚ
  ay_new : ℚ
  deriving Repr, DecidableEq

/-- The all-zero record, `BodyState::new()`. -/
def BodyState.zero : BodyState :=
  ⟨0, 0, 0, 0, 0, 0, 0, 0, 0, 0, 0, 0, 0, 0, 0⟩

/-- The `Bodies` resource: the body array plus scalar diagnostics. -/
structure Bodies where
  data : List BodyState
  elapsed_time : ℚ
  kinetic_energy : ℚ
  potential_energy : ℚ
  deriving Repr, DecidableEq

/-- Index into the body array (`bodies.data[i]`); out-of-range reads never
occur at the indices the theorems use. -/
def nth (l : List BodyState) (i : ℕ) : BodyState := l.getD i BodyState.zero

/-! Initializer (`init_bodies`, lines 108–143)

The randomness source `StdRng` is modeled by an infinite stream
`draws : ℕ → ℚ` of samples consumed in program order; `rng.sample(Standard)`
on `f32` yields a uniform value in `[0,1)`, so hypotheses on `draws` range
over that interval.  Body `i` consumes the seven samples
`draws (7*i) … draws (7*i+6)` exactly as the Rust loop does: mass, x, y,
vx magnitude, vx sign flip, vy magnitude, vy sign flip.

The body count is the compile-time constant `NUM_BODIES` in the source;
it is made a parameter `n` here (the loop bound), with
`initBodies = initBodiesN NUM_BODIES`. -/

/-- The body produced by iteration `i` of the `init_bodies` loop. -/
def initBody (draws : ℕ → ℚ) (i : ℕ) : BodyState :=
  let mass := draws (7 * i) * (MAX_MASS - MIN_MASS) + MIN_MASS
  let x := draws (7 * i + 1) * (MAX_X - MIN_X) + MIN_X
  let y := draws (7 * i + 2) * (MAX_Y - MIN_Y) + MIN_Y
  let vx0 := draws (7 * i + 3) * (MAX_V - MIN_V) + MIN_V
  let vx := if draws (7 * i + 4) < 1/2 then -vx0 else vx0
  let vy0 := draws (7 * i + 5) * (MAX_V - MIN_V) + MIN_V
  let vy := if draws (7 * i + 6) < 1/2 then -vy0 else vy0
  { BodyState.zero with mass := mass, x := x, y := y, vx := vx, vy := vy }

/-- The initializer `init_bodies` with the loop bound `n` as a parameter. -/
def initBodiesN (n : ℕ) (draws : ℕ → ℚ) : Bodies :=
  { data := (List.range n).map (initBody draws)
    elapsed_time := 0
    kinetic_energy := 0
    potential_energy := 0 }

/-- The initializer `init_bodies()` as in the source, with `NUM_BODIES` bodies. -/
def initBodies (draws : ℕ → ℚ) : Bodies := initBodiesN NUM_BODIES draws

/-! Leapfrog Integrator (`leapfrog_step`, lines 214–301)

Each Rust `for` loop over `bodies.data` becomes one `List.map` (or one
index-indexed map for the O(N²) force loop); the loops are sequential in
the source, so later phases see every field written by earlier phases. -/

/-- First kick (lines 218–221): `v_half = v + a * dt/2`. -/
def kick1 (b : BodyState) : BodyState :=
  { b with vx_half := b.vx + b.ax * D_TIME_HALF
           vy_half := b.vy + b.ay * D_TIME_HALF }

/-- Drift (lines 224–227): `x_new = x + v_half * dt`. -/
def drift (b : BodyState) : BodyState :=
  { b with x_new := b.x + b.vx_half * D_TIME
           y_new := b.y + b.vy_half * D_TIME }

/-- Inner body of the force loop (lines 239–254): starting from the running
accumulator `acc`, add the contribution of body `j` onto body `i`, skipping
`i == j` and pairs farther apart than `A_RIGHT_YEAR`. -/
def forceInner (data : List BodyState) (i : ℕ) (acc : ℚ × ℚ) (j : ℕ) : ℚ × ℚ :=
  if i = j then acc
  else
    let dx := (nth data j).x_new - (nth data i).x_new
    let dy := (nth data j).y_new - (nth data i).y_new
    let r2 := dx * dx + dy * dy
    let r := Rat.sqrt r2
    if r > A_RIGHT_YEAR then acc
    else
      let a_mag := GRAVITATION * (nth data j).mass / r2
      (acc.1 + a_mag * dx / r, acc.2 + a_mag * dy / r)

/-- The acceleration accumulated for body `i` by the inner `j` loop, after
`ax_new`/`ay_new` were zeroed (lines 230–233). -/
def forceAccum (data : List BodyState) (i : ℕ) : ℚ × ℚ :=
  (List.range data.length).foldl (forceInner data i) (0, 0)

/-- Force phase (lines 230–256): recompute `ax_new`/`ay_new` for every body
from the drifted positions `x_new`/`y_new` of all bodies. -/
def forcePhase (data : List BodyState) : List BodyState :=
  (List.range data.length).map (fun i =>
    let a := forceAccum data i
    { nth data i with ax_new := a.1, ay_new := a.2 })

/-- Second kick (lines 259–262): `v_new = v_half + a_new * dt/2`. -/
def kick2 (b : BodyState) : BodyState :=
  { b with vx_new := b.vx_half + b.ax_new * D_TIME_HALF
           vy_new := b.vy_half + b.ay_new * D_TIME_HALF }

/-- Commit (lines 265–272): move the `_new` fields into the durable fields. -/
def commit (b : BodyState) : BodyState :=
  { b with x := b.x_new, y := b.y_new
           vx := b.vx_new, vy := b.vy_new
           ax := b.ax_new, ay := b.ay_new }

/-- Kinetic-energy accumulation (lines 276–280):
`ke_sum += 0.5 * mass * (vx*vx + vy*vy)`, in order over the body array.
(The source widens each term to `f64`; both widths are modeled by `ℚ`.) -/
def keSum (data : List BodyState) : ℚ :=
  data.foldl (fun s b => s + 1/2 * b.mass * (b.vx * b.vx + b.vy * b.vy)) 0

/-- One inner term of the potential-energy loop (lines 286–295) for the
pair `(i, j)`: skipped exactly when `r == 0`, no cutoff test. -/
def peInner (data : List BodyState) (i : ℕ) (s : ℚ) (j : ℕ) : ℚ :=
  let dx := (nth data j).x - (nth data i).x
  let dy := (nth data j).y - (nth data i).y
  let r := Rat.sqrt (dx * dx + dy * dy)
  if r = 0 then s
  else s + -1 * GRAVITATION * (nth data i).mass * (nth data j).mass / r

/-- Potential-energy accumulation (lines 283–296): double loop with
`j` ranging over `i+1 .. n-1`. -/
def peSum (data : List BodyState) : ℚ :=
  (List.range data.length).foldl
    (fun s i => (List.range' (i + 1) (data.length - (i + 1))).foldl (peInner data i) s) 0

/-- One `leapfrog_step` (lines 214–301): kick, drift, force evaluation on the
drifted positions, kick, commit, then recompute both energies from the
committed state and advance `elapsed_time` by `D_TIME`. -/
def leapfrogStep (s : Bodies) : Bodies :=
  let d1 := s.data.map kick1
  let d2 := d1.map drift
  let d3 := forcePhase d2
  let d4 := d3.map kick2
  let d5 := d4.map commit
  { data := d5
    elapsed_time := s.elapsed_time + D_TIME
    kinetic_energy := keSum d5
    potential_energy := peSum d5 }

/-- The drifted snapshot the force phase works on: every body after the
first kick and the drift. -/
def drifted (s : Bodies) : List BodyState := (s.data.map kick1).map drift

/-- The body record committed for index `i` by one `leapfrog_step`. -/
def stepBody (s : Bodies) (i : ℕ) : BodyState :=
  let a := forceAccum (drifted s) i
  commit (kick2 { nth (drifted s) i with ax_new := a.1, ay_new := a.2 })

/-! Per-pair contribution functions

The accumulating loop bodies above, rewritten as "accumulator + term", so
that the folds can be related to `Finset` sums. -/

/-- The contribution of body `j` to body `i` in the force loop: zero on the
diagonal and beyond the cutoff, the Newtonian term otherwise. -/
def accelContrib (data : List BodyState) (i j : ℕ) : ℚ × ℚ :=
  if i = j then (0, 0)
  else
    let dx := (nth data j).x_new - (nth data i).x_new
    let dy := (nth data j).y_new - (nth data i).y_new
    let r2 := dx * dx + dy * dy
    let r := Rat.sqrt r2
    if r > A_RIGHT_YEAR then (0, 0)
    else (GRAVITATION * (nth data j).mass / r2 * dx / r,
          GRAVITATION * (nth data j).mass / r2 * dy / r)

/-- The contribution of the pair `(i, j)` to the potential-energy sum:
zero when the separation is zero, `-G·mᵢ·mⱼ/r` otherwise (no cutoff). -/
def peTerm (data : List BodyState) (i j : ℕ) : ℚ :=
  let dx := (nth data j).x - (nth data i).x
  let dy := (nth data j).y - (nth data i).y
  let r := Rat.sqrt (dx * dx + dy * dy)
  if r = 0 then 0
  else -1 * GRAVITATION * (nth data i).mass * (nth data j).mass / r

/-! Spec-side definitions (for the refinement claims)

These follow the wording of the specification (§4.3 Force Evaluator
contract and §4.4 integration algorithm), to be compared with the
definitions above that were translated from the source.  `r^2` in the
spec's force formula denotes the squared distance `dx² + dy²`. -/

/-- Spec §4.3: the contribution of the ordered pair `(i, j)`, `i ≠ j`, on
a positions/masses snapshot: `d = position[j] - position[i]`, `r = |d|`;
zero if `r > CUTOFF_DISTANCE`, else `(G * mass[j] / r²) * d / r`. -/
def pairAccelSpec (pos : List (ℚ × ℚ)) (mass : List ℚ) (i j : ℕ) : ℚ × ℚ :=
  let d1 := (pos.getD j (0, 0)).1 - (pos.getD i (0, 0)).1
  let d2 := (pos.getD j (0, 0)).2 - (pos.getD i (0, 0)).2
  let rSq := d1 * d1 + d2 * d2
  let r := Rat.sqrt rSq
  if r > A_RIGHT_YEAR then (0, 0)
  else (GRAVITATION * mass.getD j 0 / rSq * d1 / r,
        GRAVITATION * mass.getD j 0 / rSq * d2 / r)

/-- Spec §4.3: the Force Evaluator's output for body `i` — the sum of the
pair contributions over all `j ≠ i`. -/
def evaluateSpec (pos : List (ℚ × ℚ)) (mass : List ℚ) (i : ℕ) : ℚ × ℚ :=
  ∑ j in (Finset.range pos.length).erase i, pairAccelSpec pos mass i j

/-- Spec §4.4 step 1+2: the fully drifted position snapshot,
`position + (v + a·(Δt/2))·Δt` for every body. -/
def driftSpec (s : Bodies) : List (ℚ × ℚ) :=
  s.data.map (fun b =>
    (b.x + (b.vx + b.ax * (D_TIME / 2)) * D_TIME,
     b.y + (b.vy + b.ay * (D_TIME / 2)) * D_TIME))

/-- The durable fields of a body — the entity of the spec's data model
(§3), without the transient per-step fields. -/
structure Durable where
  mass : ℚ
  x : ℚ
  y : ℚ
  vx : ℚ
  vy : ℚ
  ax : ℚ
  ay : ℚ
  deriving Repr, DecidableEq

/-- Projection of a body record onto its durable fields. -/
def durable (b : BodyState) : Durable :=
  ⟨b.mass, b.x, b.y, b.vx, b.vy, b.ax, b.ay⟩

/-- Spec §4.4: the durable state of body `i` after one step, computed in
the spec's order — half-kick `v_half = v + a·(Δt/2)`, drift
`position_new = position + v_half·Δt`, force evaluation on the fully
drifted snapshot of all bodies, second half-kick
`v_new = v_half + a_new·(Δt/2)`, commit. -/
def specStepBody (s : Bodies) (i : ℕ) : Durable :=
  let b := nth s.data i
  let vh1 := b.vx + b.ax * (D_TIME / 2)
  let vh2 := b.vy + b.ay * (D_TIME / 2)
  let p1 := b.x + vh1 * D_TIME
  let p2 := b.y + vh2 * D_TIME
  let aN := evaluateSpec (driftSpec s) (s.data.map BodyState.mass) i
  ⟨b.mass, p1, p2, vh1 + aN.1 * (D_TIME / 2), vh2 + aN.2 * (D_TIME / 2),
   aN.1, aN.2⟩

/-! Extended-value model of `f32` for the division-by-zero claim

`F32` carries a finite value (idealized as an exact rational — rounding and
overflow are not modeled), two signed infinities, and NaN, with the IEEE-754
rules for the operations that occur on the force path.  Zero is unsigned in
this model; every zero reaching a division on the force path is a `+0`
(`dx*dx + dy*dy` of exact zeros), so the sign-of-zero distinction is not
needed.  `inf b` is `+∞` for `b = false` and `-∞` for `b = true`. -/

inductive F32 where
  | nan : F32
  | inf : Bool → F32
  | val : ℚ → F32
  deriving Repr, DecidableEq

/-- A value is finite iff it is neither an infinity nor NaN. -/
def F32.isFinite : F32 → Bool
  | F32.val _ => true
  | _ => false

/-- IEEE subtraction restricted to the cases on the force path. -/
def F32.sub : F32 → F32 → F32
  | F32.nan, _ => F32.nan
  | _, F32.nan => F32.nan
  | F32.val a, F32.val b => F32.val (a - b)
  | F32.inf s, F32.val _ => F32.inf s
  | F32.val _, F32.inf s => F32.inf (!s)
  | F32.inf s, F32.inf t => if s = t then F32.nan else F32.inf s

/-- IEEE addition: `∞ + (-∞) = NaN`, NaN propagates. -/
def F32.add : F32 → F32 → F32
  | F32.nan, _ => F32.nan
  | _, F32.nan => F32.nan
  | F32.val a, F32.val b => F32.val (a + b)
  | F32.inf s, F32.val _ => F32.inf s
  | F32.val _, F32.inf s => F32.inf s
  | F32.inf s, F32.inf t => if s = t then F32.inf s else F32.nan

/-- IEEE multiplication: `∞ * 0 = NaN`, signs multiply, NaN propagates. -/
def F32.mul : F32 → F32 → F32
  | F32.nan, _ => F32.nan
  | _, F32.nan => F32.nan
  | F32.val a, F32.val b => F32.val (a * b)
  | F32.inf s, F32.val b =>
      if b = 0 then F32.nan else F32.inf (xor s (decide (b < 0)))
  | F32.val a, F32.inf s =>
      if a = 0 then F32.nan else F32.inf (xor s (decide (a < 0)))
  | F32.inf s, F32.inf t => F32.inf (xor s t)

/-- IEEE division: a nonzero finite value divided by (unsigned) zero is a
signed infinity, `0 / 0 = NaN`, NaN propagates. -/
def F32.div : F32 → F32 → F32
  | F32.nan, _ => F32.nan
  | _, F32.nan => F32.nan
  | F32.val a, F32.val b =>
      if b = 0 then (if a = 0 then F32.nan else F32.inf (decide (a < 0)))
      else F32.val (a / b)
  | F32.inf s, F32.val b =>
      if b = 0 then F32.inf s else F32.inf (xor s (decide (b < 0)))
  | F32.val _, F32.inf _ => F32.val 0
  | F32.inf _, F32.inf _ => F32.nan

/-- IEEE square root (`sqrt` of a negative value is NaN); the finite case
reuses the `Rat.sqrt` idealization. -/
def F32.sqrtv : F32 → F32
  | F32.nan => F32.nan
  | F32.inf s => if s then F32.nan else F32.inf false
  | F32.val a => if a < 0 then F32.nan else F32.val (Rat.sqrt a)

/-- IEEE `<`: any comparison against NaN is false. -/
def F32.lt : F32 → F32 → Bool
  | F32.nan, _ => false
  | _, F32.nan => false
  | F32.val a, F32.val b => decide (a < b)
  | F32.inf s, F32.inf t => s && !t
  | F32.inf s, F32.val _ => s
  | F32.val _, F32.inf t => !t

/-- The force-loop inner body (`src/main.rs` lines 239–254) over the
extended-value model, on a positions/masses snapshot. -/
def forceInnerF (pos : List (F32 × F32)) (mass : List F32) (i : ℕ)
    (acc : F32 × F32) (j : ℕ) : F32 × F32 :=
  if i = j then acc
  else
    let z := (F32.val 0, F32.val 0)
    let dx := F32.sub (pos.getD j z).1 (pos.getD i z).1
    let dy := F32.sub (pos.getD j z).2 (pos.getD i z).2
    let r2 := F32.add (F32.mul dx dx) (F32.mul dy dy)
    let r := F32.sqrtv r2
    if F32.lt (F32.val A_RIGHT_YEAR) r then acc
    else
      let a_mag := F32.div (F32.mul (F32.val GRAVITATION) (mass.getD j (F32.val 0))) r2
      (F32.add acc.1 (F32.div (F32.mul a_mag dx) r),
       F32.add acc.2 (F32.div (F32.mul a_mag dy) r))

/-- The force evaluation (lines 230–256) over the extended-value model. -/
def forceEvalF (pos : List (F32 × F32)) (mass : List F32) : List (F32 × F32) :=
  (List.range pos.length).map (fun i =>
    (List.range pos.length).foldl (forceInnerF pos mass i) (F32.val 0, F32.val 0))

/-! Spec-side terms for the force and potential-energy claims -/

/-- The claimed per-pair force term on a drifted snapshot: zero beyond the
cutoff, `(G·mass[j]/r²)·d/r` otherwise, with `r²` the squared distance. -/
def claimForceTerm (data : List BodyState) (i j : ℕ) : ℚ × ℚ :=
  let dx := (nth data j).x_new - (nth data i).x_new
  let dy := (nth data j).y_new - (nth data i).y_new
  let rSq := dx * dx + dy * dy
  let r := Rat.sqrt rSq
  if r > A_RIGHT_YEAR then (0, 0)
  else (GRAVITATION * (nth data j).mass / rSq * dx / r,
        GRAVITATION * (nth data j).mass / rSq * dy / r)

/-- The unordered index pairs `(i, j)` with `i < j < n`. -/
def pePairs (n : ℕ) : Finset (ℕ × ℕ) :=
  (Finset.range n ×ˢ Finset.range n).filter (fun p => p.1 < p.2)

/-- The claimed per-pair potential term: `mᵢ·mⱼ/r`, zero when `r = 0`,
no cutoff (to be scaled by `-G`). -/
def peTermSpec (data : List BodyState) (i j : ℕ) : ℚ :=
  let dx := (nth data j).x - (nth data i).x
  let dy := (nth data j).y - (nth data i).y
  let r := Rat.sqrt (dx * dx + dy * dy)
  if r = 0 then 0
  else (nth data i).mass * (nth data j).mass / r

/-! Concrete sample states used to instantiate the theorems -/

/-- A body at rest at `(px, py)` with mass `m` and zeroed transients. -/
def sampleBody (m px py : ℚ) : BodyState :=
  { BodyState.zero with mass := m, x := px, y := py }

/-- A concrete two-body simulation state. -/
def sampleBodies : Bodies :=
  { data := [sampleBody 1 0 0, sampleBody 2 3 4]
    elapsed_time := 0
    kinetic_energy := 0
    potential_energy := 0 }

/-- A concrete two-body drifted snapshot with distinct `x_new`/`y_new`. -/
def sampleSnapshot : List BodyState :=
  [{ BodyState.zero with mass := 1 },
   { BodyState.zero with mass := 2, x_new := 3, y_new := 4 }]

/-! Fold-to-sum bridging lemmas -/

theorem foldl_eq_init_add_sum {α M : Type} [AddCommMonoid M] (f : M → α → M)
    (g : α → M) (hf : ∀ s a, f s a = s + g a) (l : List α) (init : M) :
    l.foldl f init = init + (l.map g).sum := by
  induction l generalizing init with
  | nil => simp
  | cons x xs ih => simp [hf, ih, add_assoc]

theorem sum_map_range {M : Type} [AddCommMonoid M] (f : ℕ → M) (n : ℕ) :
    ((List.range n).map f).sum = ∑ j in Finset.range n, f j := by
  induction n with
  | zero => simp
  | succ n ih => rw [List.range_succ]; simp [Finset.sum_range_succ, ih]

theorem sum_map_range' {M : Type} [AddCommMonoid M] (f : ℕ → M) (s l : ℕ) :
    ((List.range' s l).map f).sum = ∑ j in Finset.Ico s (s + l), f j := by
  induction l generalizing s with
  | zero => simp
  | succ l ih =>
      rw [List.range'_succ, List.map_cons, List.sum_cons, ih,
        Finset.sum_eq_sum_Ico_succ_bot (by omega : s < s + (l + 1)),
        show s + 1 + l = s + (l + 1) by omega]

theorem nth_map_of_lt (f : BodyState → BodyState) (l : List BodyState) (i : ℕ)
    (h : i < l.length) : nth (l.map f) i = f (nth l i) := by
  unfold nth
  rw [List.getD_eq_getElem?_getD, List.getElem?_map,
    List.getElem?_eq_getElem h, List.getD_eq_getElem?_getD,
    List.getElem?_eq_getElem h]
  rfl

theorem nth_range_map (F : ℕ → BodyState) (n i : ℕ) (h : i < n) :
    nth ((List.range n).map F) i = F i := by
  unfold nth
  rw [List.getD_eq_getElem?_getD, List.getElem?_map,
    List.getElem?_range h]
  rfl

theorem forceInner_eq_add (data : List BodyState) (i : ℕ) (acc : ℚ × ℚ)
    (j : ℕ) : forceInner data i acc j = acc + accelContrib data i j := by
  unfold forceInner accelContrib
  by_cases hij : i = j
  · simp [hij]
  · simp only [hij, if_false]
    by_cases hcut :
        Rat.sqrt (((nth data j).x_new - (nth data i).x_new) *
            ((nth data j).x_new - (nth data i).x_new) +
          ((nth data j).y_new - (nth data i).y_new) *
            ((nth data j).y_new - (nth data i).y_new)) > A_RIGHT_YEAR
    · simp [hcut]
    · simp only [hcut, if_false]
      cases acc with
      | mk a b => simp [Prod.mk_add_mk]

theorem forceAccum_eq_sum (data : List BodyState) (i : ℕ) :
    forceAccum data i = ∑ j in Finset.range data.length, accelContrib data i j := by
  unfold forceAccum
  rw [foldl_eq_init_add_sum (forceInner data i) (accelContrib data i)
    (forceInner_eq_add data i), sum_map_range, Prod.mk_zero_zero, zero_add]

theorem accelContrib_self (data : List BodyState) (i : ℕ) :
    accelContrib data i i = (0, 0) := by
  unfold accelContrib
  simp

/-- The force loop's accumulated value as a sum over `j ≠ i`. -/
theorem forceAccum_eq_sum_erase (data : List BodyState) (i : ℕ) :
    forceAccum data i =
      ∑ j in (Finset.range data.length).erase i, accelContrib data i j := by
  rw [forceAccum_eq_sum]
  by_cases hi : i ∈ Finset.range data.length
  · rw [← Finset.sum_erase_add _ _ hi, accelContrib_self]
    simp
  · rw [Finset.erase_eq_of_not_mem hi]

theorem peInner_eq_add (data : List BodyState) (i : ℕ) (s : ℚ) (j : ℕ) :
    peInner data i s j = s + peTerm data i j := by
  unfold peInner peTerm
  by_cases h :
      Rat.sqrt (((nth data j).x - (nth data i).x) *
          ((nth data j).x - (nth data i).x) +
        ((nth data j).y - (nth data i).y) *
          ((nth data j).y - (nth data i).y)) = 0
  · simp [h]
  · simp [h]

theorem peSum_eq_double_sum (data : List BodyState) :
    peSum data = ∑ i in Finset.range data.length,
      ∑ j in Finset.Ico (i + 1) data.length, peTerm data i j := by
  unfold peSum
  have hf : ∀ (s : ℚ) (i : ℕ),
      (List.range' (i + 1) (data.length - (i + 1))).foldl (peInner data i) s =
        s + ∑ j in Finset.Ico (i + 1) (i + 1 + (data.length - (i + 1))),
          peTerm data i j := by
    intro s i
    rw [foldl_eq_init_add_sum (peInner data i) (peTerm data i)
      (peInner_eq_add data i), sum_map_range']
  rw [foldl_eq_init_add_sum
    (fun s i => (List.range' (i + 1) (data.length - (i + 1))).foldl (peInner data i) s)
    (fun i => ∑ j in Finset.Ico (i + 1) (i + 1 + (data.length - (i + 1))), peTerm data i j)
    hf (List.range data.length) 0, sum_map_range, zero_add]
  apply Finset.sum_congr rfl
  intro i hi
  rw [show i + 1 + (data.length - (i + 1)) = data.length by
    have := Finset.mem_range.mp hi; omega]

theorem keSum_eq_sum (data : List BodyState) :
    keSum data =
      (data.map (fun b => 1/2 * b.mass * (b.vx * b.vx + b.vy * b.vy))).sum := by
  unfold keSum
  rw [foldl_eq_init_add_sum _ _ (fun s b => rfl), zero_add]

theorem leapfrogStep_data (s : Bodies) :
    (leapfrogStep s).data = (List.range s.data.length).map (stepBody s) := by
  unfold leapfrogStep forcePhase stepBody drifted
  simp only [List.length_map, List.map_map]
  rfl

theorem leapfrogStep_length (s : Bodies) :
    (leapfrogStep s).data.length = s.data.length := by
  rw [leapfrogStep_data, List.length_map, List.length_range]

theorem nth_leapfrogStep (s : Bodies) (i : ℕ) (h : i < s.data.length) :
    nth (leapfrogStep s).data i = stepBody s i := by
  rw [leapfrogStep_data, nth_range_map _ _ _ h]

theorem getD_map_of_lt {α β : Type} (f : α → β) (l : List α) (i : ℕ) (d : α)
    (e : β) (h : i < l.length) : (l.map f).getD i e = f (l.getD i d) := by
  rw [List.getD_eq_getElem?_getD, List.getElem?_map, List.getElem?_eq_getElem h,
    List.getD_eq_getElem?_getD, List.getElem?_eq_getElem h]
  rfl

theorem map_eq_range_map {β : Type} (f : BodyState → β) (l : List BodyState) :
    l.map f = (List.range l.length).map (fun j => f (nth l j)) := by
  apply List.ext_getElem
  · simp
  · intro k h1 h2
    simp only [List.getElem_map, List.getElem_range]
    congr 1
    unfold nth
    rw [List.getD_eq_getElem?_getD,
      List.getElem?_eq_getElem (by simpa using h1)]
    rfl

theorem half_eq : D_TIME / 2 = D_TIME_HALF := by
  norm_num [D_TIME, D_TIME_HALF]

theorem drifted_length (s : Bodies) : (drifted s).length = s.data.length := by
  unfold drifted
  simp

theorem nth_drifted (s : Bodies) (i : ℕ) (h : i < s.data.length) :
    nth (drifted s) i = drift (kick1 (nth s.data i)) := by
  unfold drifted
  rw [nth_map_of_lt _ _ _ (by simpa using h), nth_map_of_lt _ _ _ h]

/-- The force loop's result equals the spec Force Evaluator applied to the
`x_new`/`y_new` position snapshot and the mass array. -/
theorem forceAccum_eq_evaluateSpec (d : List BodyState) (i : ℕ)
    (h : i < d.length) :
    forceAccum d i =
      evaluateSpec (d.map (fun b => (b.x_new, b.y_new))) (d.map BodyState.mass) i := by
  rw [forceAccum_eq_sum_erase]
  unfold evaluateSpec
  rw [List.length_map]
  apply Finset.sum_congr rfl
  intro j hj
  have hj2 : j < d.length := Finset.mem_range.mp (Finset.mem_of_mem_erase hj)
  have hij : i ≠ j := fun e => (Finset.ne_of_mem_erase hj) e.symm
  unfold accelContrib pairAccelSpec
  rw [if_neg hij,
    getD_map_of_lt (fun b => (b.x_new, b.y_new)) d j BodyState.zero _ hj2,
    getD_map_of_lt (fun b => (b.x_new, b.y_new)) d i BodyState.zero _ h,
    getD_map_of_lt BodyState.mass d j BodyState.zero _ hj2]
  rfl

/-- The drifted `x_new`/`y_new` snapshot coincides with the spec's drift
formula (§4.4 steps 1–2); this also checks `D_TIME_HALF = Δt/2`. -/
theorem driftSpec_eq (s : Bodies) :
    (drifted s).map (fun b => (b.x_new, b.y_new)) = driftSpec s := by
  unfold drifted driftSpec
  rw [List.map_map, List.map_map]
  apply List.map_congr_left
  intro b _
  simp only [Function.comp_apply, drift, kick1, ← half_eq]

/-- The phases `kick1` and `drift` do not touch the mass field. -/
theorem drifted_mass (s : Bodies) :
    (drifted s).map BodyState.mass = s.data.map BodyState.mass := by
  unfold drifted
  rw [List.map_map, List.map_map]
  rfl

theorem stepBody_mass (s : Bodies) (i : ℕ) (h : i < s.data.length) :
    (stepBody s i).mass = (nth s.data i).mass := by
  unfold stepBody
  show (nth (drifted s) i).mass = (nth s.data i).mass
  rw [nth_drifted s i h]
  rfl

theorem nth_step_mass (s : Bodies) (i : ℕ) (h : i < s.data.length) :
    (nth (leapfrogStep s).data i).mass = (nth s.data i).mass := by
  rw [nth_leapfrogStep s i h, stepBody_mass s i h]

theorem iterate_length (s : Bodies) (k : ℕ) :
    ((leapfrogStep^[k]) s).data.length = s.data.length := by
  induction k with
  | zero => rfl
  | succ k ih => rw [Function.iterate_succ_apply', leapfrogStep_length, ih]

theorem iterate_nth_mass (s : Bodies) (k i : ℕ) (h : i < s.data.length) :
    (nth ((leapfrogStep^[k]) s).data i).mass = (nth s.data i).mass := by
  induction k with
  | zero => rfl
  | succ k ih =>
      rw [Function.iterate_succ_apply',
        nth_step_mass _ i (by rw [iterate_length]; exact h), ih]

theorem iterate_elapsed (s : Bodies) (k : ℕ) :
    ((leapfrogStep^[k]) s).elapsed_time = s.elapsed_time + k * D_TIME := by
  induction k with
  | zero => simp
  | succ k ih =>
      rw [Function.iterate_succ_apply']
      show ((leapfrogStep^[k]) s).elapsed_time + D_TIME = _
      rw [ih]
      push_cast
      ring

theorem nth_init_mass (n : ℕ) (draws : ℕ → ℚ) (i : ℕ) (h : i < n) :
    (nth (initBodiesN n draws).data i).mass =
      draws (7 * i) * (MAX_MASS - MIN_MASS) + MIN_MASS := by
  unfold initBodiesN
  rw [nth_range_map _ _ _ h]
  rfl

theorem init_mass_pos (n : ℕ) (draws : ℕ → ℚ) (i : ℕ) (h : i < n)
    (h0 : 0 ≤ draws (7 * i)) :
    0 < (nth (initBodiesN n draws).data i).mass := by
  rw [nth_init_mass n draws i h]
  have h1 : 0 ≤ draws (7 * i) * (MAX_MASS - MIN_MASS) :=
    mul_nonneg h0 (by norm_num [MAX_MASS, MIN_MASS])
  have h2 : (0 : ℚ) < MIN_MASS := by norm_num [MIN_MASS]
  linarith

theorem keSum_nonneg (data : List BodyState) (h : ∀ b ∈ data, 0 ≤ b.mass) :
    0 ≤ keSum data := by
  rw [keSum_eq_sum]
  apply List.sum_nonneg
  intro x hx
  obtain ⟨b, hb, rfl⟩ := List.mem_map.mp hx
  have hm := h b hb
  exact mul_nonneg (mul_nonneg (by norm_num) hm)
    (add_nonneg (mul_self_nonneg _) (mul_self_nonneg _))

theorem nth_mem (data : List BodyState) (i : ℕ) (h : i < data.length) :
    nth data i ∈ data := by
  unfold nth
  rw [List.getD_eq_getElem?_getD, List.getElem?_eq_getElem h]
  exact List.getElem_mem h

theorem peTerm_nonpos (data : List BodyState) (i j : ℕ) (hi : i < data.length)
    (hj : j < data.length) (h : ∀ b ∈ data, 0 ≤ b.mass) :
    peTerm data i j ≤ 0 := by
  unfold peTerm
  set dx := (nth data j).x - (nth data i).x
  set dy := (nth data j).y - (nth data i).y
  by_cases hr : Rat.sqrt (dx * dx + dy * dy) = 0
  · simp [hr]
  · rw [if_neg hr]
    have hrpos : 0 < Rat.sqrt (dx * dx + dy * dy) :=
      lt_of_le_of_ne (Rat.sqrt_nonneg _) (Ne.symm hr)
    have hmi := h _ (nth_mem data i hi)
    have hmj := h _ (nth_mem data j hj)
    have hG : (0 : ℚ) < GRAVITATION := by norm_num [GRAVITATION]
    have h1 : 0 ≤ GRAVITATION * (nth data i).mass * (nth data j).mass /
        Rat.sqrt (dx * dx + dy * dy) := by positivity
    have h2 : -1 * GRAVITATION * (nth data i).mass * (nth data j).mass /
          Rat.sqrt (dx * dx + dy * dy) =
        -(GRAVITATION * (nth data i).mass * (nth data j).mass /
          Rat.sqrt (dx * dx + dy * dy)) := by ring
    rw [h2]
    linarith

theorem peSum_nonpos (data : List BodyState) (h : ∀ b ∈ data, 0 ≤ b.mass) :
    peSum data ≤ 0 := by
  rw [peSum_eq_double_sum]
  apply Finset.sum_nonpos
  intro i hi
  apply Finset.sum_nonpos
  intro j hj
  exact peTerm_nonpos data i j (Finset.mem_range.mp hi)
    (Finset.mem_Ico.mp hj).2 h

theorem step_masses_nonneg (s : Bodies) (h : ∀ b ∈ s.data, 0 ≤ b.mass) :
    ∀ b ∈ (leapfrogStep s).data, 0 ≤ b.mass := by
  intro b hb
  rw [leapfrogStep_data] at hb
  obtain ⟨j, hj, rfl⟩ := List.mem_map.mp hb
  have hjn : j < s.data.length := List.mem_range.mp hj
  rw [stepBody_mass s j hjn]
  exact h _ (nth_mem s.data j hjn)

theorem sum_pairs_eq_double {M : Type} [AddCommMonoid M] (n : ℕ)
    (f : ℕ → ℕ → M) :
    ∑ p in pePairs n, f p.1 p.2 =
      ∑ i in Finset.range n, ∑ j in Finset.Ico (i + 1) n, f i j := by
  unfold pePairs
  rw [Finset.sum_filter, Finset.sum_product]
  apply Finset.sum_congr rfl
  intro i _
  have hset : Finset.Ico (i + 1) n = (Finset.range n).filter (fun j => i < j) := by
    ext j
    simp only [Finset.mem_Ico, Finset.mem_filter, Finset.mem_range]
    omega
  rw [hset, Finset.sum_filter]

theorem pePairs_card (n : ℕ) :
    (pePairs n).card = n * (n - 1) / 2 := by
  have h1 : (pePairs n).card = ∑ i in Finset.range n, (n - (i + 1)) := by
    rw [Finset.card_eq_sum_ones, sum_pairs_eq_double n (fun _ _ => 1)]
    apply Finset.sum_congr rfl
    intro i _
    rw [Finset.sum_const, Nat.card_Ico, smul_eq_mul, mul_one]
  have h2 : ∑ i in Finset.range n, (n - (i + 1)) = ∑ i in Finset.range n, i := by
    rw [← Finset.sum_range_reflect]
    apply Finset.sum_congr rfl
    intro i hi
    have := Finset.mem_range.mp hi
    omega
  have h3 := Finset.sum_range_id_mul_two n
  omega

/-- The committed positions of the stepped state are the drifted positions. -/
theorem step_pos_map (s : Bodies) :
    (leapfrogStep s).data.map (fun b => (b.x, b.y)) =
      (drifted s).map (fun b => (b.x_new, b.y_new)) := by
  rw [leapfrogStep_data, List.map_map,
    map_eq_range_map (fun b => (b.x_new, b.y_new)) (drifted s), drifted_length]
  rfl

/-- The masses of the stepped state are the masses of the drifted snapshot. -/
theorem step_mass_map (s : Bodies) :
    (leapfrogStep s).data.map BodyState.mass = (drifted s).map BodyState.mass := by
  rw [leapfrogStep_data, List.map_map,
    map_eq_range_map BodyState.mass (drifted s), drifted_length]
  rfl

theorem nth_init_accel (n : ℕ) (draws : ℕ → ℚ) (j : ℕ) :
    (nth (initBodiesN n draws).data j).ax = 0 ∧
    (nth (initBodiesN n draws).data j).ay = 0 := by
  by_cases hj : j < n
  · unfold initBodiesN
    rw [nth_range_map _ _ _ hj]
    exact ⟨rfl, rfl⟩
  · unfold initBodiesN nth
    rw [List.getD_eq_default _ _ (by simpa using Nat.le_of_not_lt hj)]
    exact ⟨rfl, rfl⟩

/-! Claim theorems -/

/-- C1: `leapfrog_step` advances every body in exactly the spec's order —
half-kick `v_half = v + a·(Δt/2)` using the stored acceleration (which is
zero in the initial state, second conjunct), drift
`position_new = position + v_half·Δt`, a force evaluation performed on the
fully drifted snapshot of all bodies, second half-kick
`v_new = v_half + a_new·(Δt/2)`, and a commit of `position_new`, `v_new`,
`a_new` into the durable fields. -/
theorem step_advances_in_KDK_order (s : Bodies) (i : ℕ)
    (h : i < s.data.length) :
    durable (nth (leapfrogStep s).data i) = specStepBody s i ∧
    (∀ n draws j, (nth (initBodiesN n draws).data j).ax = 0 ∧
      (nth (initBodiesN n draws).data j).ay = 0) := by
  refine ⟨?_, nth_init_accel⟩
  rw [nth_leapfrogStep s i h]
  unfold stepBody specStepBody
  rw [← driftSpec_eq s, ← drifted_mass s,
    ← forceAccum_eq_evaluateSpec (drifted s) i (by rw [drifted_length]; exact h)]
  unfold durable commit kick2
  simp only [nth_drifted s i h, drift, kick1, ← half_eq]

/-- Witness for C1 at a concrete two-body state. -/
theorem step_advances_in_KDK_order_witness :
    durable (nth (leapfrogStep sampleBodies).data 0) = specStepBody sampleBodies 0 ∧
    (∀ n draws j, (nth (initBodiesN n draws).data j).ax = 0 ∧
      (nth (initBodiesN n draws).data j).ay = 0) :=
  step_advances_in_KDK_order sampleBodies 0 (by simp [sampleBodies])

/-- C2: on a snapshot with all pairwise distances positive, the force
evaluation assigns body `i` the sum over all `j ≠ i` of the cutoff law —
exactly zero when `r > A_RIGHT_YEAR` (whatever the mass), and
`(G·mⱼ/r²)·d/r` otherwise — and a body never contributes to its own
acceleration (the sum ranges over `(range n).erase i`). -/
theorem force_is_cutoff_newton_sum (data : List BodyState) (i : ℕ)
    (hi : i < data.length)
    (hdist : ∀ j k, j < data.length → k < data.length → j ≠ k →
      ((nth data j).x_new, (nth data j).y_new) ≠
        ((nth data k).x_new, (nth data k).y_new)) :
    ((nth (forcePhase data) i).ax_new, (nth (forcePhase data) i).ay_new) =
      ∑ j in (Finset.range data.length).erase i, claimForceTerm data i j ∧
    (∀ j, A_RIGHT_YEAR < Rat.sqrt
        (((nth data j).x_new - (nth data i).x_new) *
           ((nth data j).x_new - (nth data i).x_new) +
         ((nth data j).y_new - (nth data i).y_new) *
           ((nth data j).y_new - (nth data i).y_new)) →
      claimForceTerm data i j = (0, 0)) := by
  constructor
  · unfold forcePhase
    rw [nth_range_map _ _ _ hi]
    show ((forceAccum data i).1, (forceAccum data i).2) = _
    rw [Prod.mk.eta, forceAccum_eq_sum_erase]
    apply Finset.sum_congr rfl
    intro j hj
    have hij : i ≠ j := fun e => (Finset.ne_of_mem_erase hj) e.symm
    unfold accelContrib claimForceTerm
    rw [if_neg hij]
  · intro j hcut
    unfold claimForceTerm
    rw [if_pos hcut]

/-- Witness for C2: a concrete two-body snapshot at distance 5. -/
theorem force_is_cutoff_newton_sum_witness :
    ((nth (forcePhase sampleSnapshot) 0).ax_new,
      (nth (forcePhase sampleSnapshot) 0).ay_new) =
      ∑ j in (Finset.range sampleSnapshot.length).erase 0,
        claimForceTerm sampleSnapshot 0 j ∧
    (∀ j, A_RIGHT_YEAR < Rat.sqrt
        (((nth sampleSnapshot j).x_new - (nth sampleSnapshot 0).x_new) *
           ((nth sampleSnapshot j).x_new - (nth sampleSnapshot 0).x_new) +
         ((nth sampleSnapshot j).y_new - (nth sampleSnapshot 0).y_new) *
           ((nth sampleSnapshot j).y_new - (nth sampleSnapshot 0).y_new)) →
      claimForceTerm sampleSnapshot 0 j = (0, 0)) := by
  apply force_is_cutoff_newton_sum sampleSnapshot 0 (by simp [sampleSnapshot])
  intro j k hj hk hne
  simp only [sampleSnapshot, List.length_cons, List.length_nil] at hj hk
  interval_cases j <;> interval_cases k <;> first | exact absurd rfl hne | decide

/-- C3: the potential-energy diagnostic computed by a step equals
`-G · Σ_{i<j} mᵢ·mⱼ/rᵢⱼ` summed over every unordered pair exactly once
(`N·(N-1)/2` pairs, the cutoff is not applied), with a pair at zero
separation contributing exactly zero (skipped) rather than dividing by
zero. -/
theorem pe_all_pairs_no_cutoff (s : Bodies) :
    (leapfrogStep s).potential_energy =
      -GRAVITATION * ∑ p in pePairs (leapfrogStep s).data.length,
        peTermSpec (leapfrogStep s).data p.1 p.2 ∧
    (pePairs (leapfrogStep s).data.length).card =
      (leapfrogStep s).data.length * ((leapfrogStep s).data.length - 1) / 2 := by
  refine ⟨?_, pePairs_card _⟩
  have h1 : (leapfrogStep s).potential_energy = peSum (leapfrogStep s).data := rfl
  rw [h1, peSum_eq_double_sum, sum_pairs_eq_double, Finset.mul_sum]
  apply Finset.sum_congr rfl
  intro i _
  rw [Finset.mul_sum]
  apply Finset.sum_congr rfl
  intro j _
  unfold peTerm peTermSpec
  by_cases hr : Rat.sqrt
      (((nth (leapfrogStep s).data j).x - (nth (leapfrogStep s).data i).x) *
         ((nth (leapfrogStep s).data j).x - (nth (leapfrogStep s).data i).x) +
       ((nth (leapfrogStep s).data j).y - (nth (leapfrogStep s).data i).y) *
         ((nth (leapfrogStep s).data j).y - (nth (leapfrogStep s).data i).y)) = 0
  · simp [hr]
  · rw [if_neg hr, if_neg hr]
    ring

/-- C4: after any completed step, every body's stored acceleration equals
the cutoff force law of the Force Evaluator applied to all bodies' stored
positions of that same committed state — never a stale value. -/
theorem accel_consistent_after_step (s : Bodies) (i : ℕ)
    (h : i < s.data.length) :
    ((nth (leapfrogStep s).data i).ax, (nth (leapfrogStep s).data i).ay) =
      evaluateSpec ((leapfrogStep s).data.map (fun b => (b.x, b.y)))
        ((leapfrogStep s).data.map BodyState.mass) i := by
  rw [step_pos_map, step_mass_map,
    ← forceAccum_eq_evaluateSpec (drifted s) i (by rw [drifted_length]; exact h),
    nth_leapfrogStep s i h]
  show ((forceAccum (drifted s) i).1, (forceAccum (drifted s) i).2) = _
  rw [Prod.mk.eta]

/-- Witness for C4 at a concrete two-body state. -/
theorem accel_consistent_after_step_witness :
    ((nth (leapfrogStep sampleBodies).data 0).ax,
      (nth (leapfrogStep sampleBodies).data 0).ay) =
      evaluateSpec ((leapfrogStep sampleBodies).data.map (fun b => (b.x, b.y)))
        ((leapfrogStep sampleBodies).data.map BodyState.mass) 0 :=
  accel_consistent_after_step sampleBodies 0 (by simp [sampleBodies])

/-- C5: every step adds exactly `D_TIME` (a positive quantum, so the value
never decreases or resets), and after exactly `k` steps from the initial
state `elapsed_time = k·Δt` exactly. -/
theorem elapsed_time_is_k_dt (s : Bodies) (k n : ℕ) (draws : ℕ → ℚ) :
    (leapfrogStep s).elapsed_time = s.elapsed_time + D_TIME ∧ 0 < D_TIME ∧
    ((leapfrogStep^[k]) (initBodiesN n draws)).elapsed_time = k * D_TIME := by
  refine ⟨rfl, by norm_num [D_TIME], ?_⟩
  rw [iterate_elapsed]
  show (0 : ℚ) + k * D_TIME = k * D_TIME
  ring

/-- C6: on a snapshot with two distinct bodies at exactly the same
position, the force path divides by zero without any guard: the magnitude
`G·m/r²` evaluates to `+∞` (a nonzero value divided by zero), and the
resulting accelerations of both bodies are NaN — non-finite. -/
theorem coincident_bodies_give_nonfinite_accel :
    forceEvalF [(F32.val 1, F32.val 2), (F32.val 1, F32.val 2)]
        [F32.val 1, F32.val 1] =
      [(F32.nan, F32.nan), (F32.nan, F32.nan)] ∧
    F32.div (F32.mul (F32.val GRAVITATION) (F32.val 1)) (F32.val 0) =
      F32.inf false ∧
    F32.isFinite F32.nan = false := by
  have hs : Rat.sqrt 0 = 0 := by simpa using Rat.sqrt_eq 0
  refine ⟨?_, ?_, rfl⟩
  · unfold forceEvalF forceInnerF
    norm_num [List.range_succ, hs, F32.sub, F32.add, F32.mul, F32.div,
      F32.sqrtv, F32.lt, GRAVITATION, A_RIGHT_YEAR]
  · norm_num [F32.mul, F32.div, GRAVITATION]

/-- C7 counterexample: calling the initializer with `N = 0` does not fail —
it returns a well-formed (empty) Simulation State; `init_bodies` has no
rejection path at all. -/
theorem init_zero_produces_state :
    initBodiesN 0 (fun _ => 0) =
      { data := [], elapsed_time := 0, kinetic_energy := 0,
        potential_energy := 0 } ∧
    (initBodiesN 0 (fun _ => 0)).data.length = 0 := by
  exact ⟨rfl, rfl⟩

/-- C7 amended: the initializer performs no validation and always produces
a Simulation State with exactly `n` bodies (the empty state for `n = 0`);
in the program itself the configuration is fixed with `NUM_BODIES > 0` and
`MIN < MAX` for every bound pair, so the error conditions cannot arise. -/
theorem init_has_no_failure_path (n : ℕ) (draws : ℕ → ℚ) :
    (initBodiesN n draws).data.length = n ∧
    (initBodiesN 0 draws).data = [] ∧
    0 < NUM_BODIES ∧ MIN_X < MAX_X ∧ MIN_Y < MAX_Y ∧
    MIN_MASS < MAX_MASS ∧ MIN_V < MAX_V := by
  refine ⟨by simp [initBodiesN], rfl, by norm_num [NUM_BODIES],
    by norm_num [MIN_X, MAX_X], by norm_num [MIN_Y, MAX_Y],
    by norm_num [MIN_MASS, MAX_MASS], by norm_num [MIN_V, MAX_V]⟩

/-- C8: with the random samples in `[0, 1)`, every body's mass is strictly
positive in the initial state, and the step operation never changes any
body's mass, so mass stays positive in every reachable state. -/
theorem mass_positive_invariant (n k i : ℕ) (draws : ℕ → ℚ)
    (h0 : ∀ m, 0 ≤ draws m) (hi : i < n) :
    0 < (nth ((leapfrogStep^[k]) (initBodiesN n draws)).data i).mass ∧
    (nth ((leapfrogStep^[k]) (initBodiesN n draws)).data i).mass =
      (nth (initBodiesN n draws).data i).mass := by
  have hlen : i < (initBodiesN n draws).data.length := by
    unfold initBodiesN
    simpa using hi
  have hpres := iterate_nth_mass (initBodiesN n draws) k i hlen
  refine ⟨?_, hpres⟩
  rw [hpres]
  exact init_mass_pos n draws i hi (h0 _)

/-- Witness for C8: one body, one step, the all-zero sample stream. -/
theorem mass_positive_invariant_witness :
    0 < (nth ((leapfrogStep^[1]) (initBodiesN 1 (fun _ => 0))).data 0).mass ∧
    (nth ((leapfrogStep^[1]) (initBodiesN 1 (fun _ => 0))).data 0).mass =
      (nth (initBodiesN 1 (fun _ => 0)).data 0).mass :=
  mass_positive_invariant 1 1 0 (fun _ => 0) (fun _ => le_refl 0) Nat.one_pos

/-- C10: from any state whose masses are non-negative, one step stores a
non-negative kinetic energy and a non-positive potential energy. -/
theorem energies_signed_after_step (s : Bodies)
    (hm : ∀ b ∈ s.data, 0 ≤ b.mass) :
    0 ≤ (leapfrogStep s).kinetic_energy ∧
    (leapfrogStep s).potential_energy ≤ 0 := by
  have h2 := step_masses_nonneg s hm
  exact ⟨keSum_nonneg _ h2, peSum_nonpos _ h2⟩

/-- Witness for C10 at a concrete two-body state. -/
theorem energies_signed_after_step_witness :
    0 ≤ (leapfrogStep sampleBodies).kinetic_energy ∧
    (leapfrogStep sampleBodies).potential_energy ≤ 0 := by
  apply energies_signed_after_step sampleBodies
  intro b hb
  simp only [sampleBodies, List.mem_cons, List.not_mem_nil, or_false] at hb
  rcases hb with rfl | rfl <;> norm_num [sampleBody, BodyState.zero]

end NBody
